import Mathlib

/-
Verification of the extraction-and-change-detection pipeline of the Airbnb
monitor (source: airbnb_monitor_github.py, with load_search_urls shared by the
near-duplicate airbnb-monitor-github.py).

The Python code is shallowly embedded: Python str is Lean String (operating on
its underlying Char list), Python set of strings is Finset String, Python set
of parsed-JSON values is modelled as the list of its elements (set membership
is the only observable the claims use, and it is unchanged by deduplication),
exceptions that the source catches are modelled as Option/branch results, and
the Selenium rendering boundary is an abstract page answering the exact
element queries the source performs.
-/

/-! ### Python string primitives -/
/-- Python `sub in s` (substring test) on Char lists: does `l` start with `p`? -/
def isPrefixL : List Char → List Char → Bool
  | [], _ => true
  | _ :: _, [] => false
  | a :: as, b :: bs => a == b && isPrefixL as bs

/-- Python `sub in s`: does `sub` occur contiguously inside `l`? -/
def isInfixL (sub : List Char) : List Char → Bool
  | [] => isPrefixL sub []
  | c :: rest => isPrefixL sub (c :: rest) || isInfixL sub rest

/-- Python `sub in s` for strings. -/
def pyContains (s sub : String) : Bool := isInfixL sub.data s.data

/-- Python `s.strip()`: drop leading and trailing whitespace. -/
def pyStrip (s : String) : String :=
  ⟨((s.data.dropWhile Char.isWhitespace).reverse.dropWhile Char.isWhitespace).reverse⟩

/-- Python `s.split(sep)` for a non-empty separator `s0 :: srest`, on Char
lists: left-to-right scan, cutting at each non-overlapping occurrence. The
fuel argument only makes the recursion structural (so that it computes by
kernel reduction): each step consumes at least one character and one unit of
fuel, so starting the fuel at the list length it never reaches the 0 case on
a non-empty list. -/
def splitOnLAux (s0 : Char) (srest : List Char) : Nat → List Char → List (List Char)
  | _, [] => [[]]
  | 0, l => [l]
  | fuel + 1, c :: rest =>
    if isPrefixL (s0 :: srest) (c :: rest) then
      [] :: splitOnLAux s0 srest fuel (rest.drop srest.length)
    else
      match splitOnLAux s0 srest fuel rest with
      | [] => [[c]]
      | g :: gs => (c :: g) :: gs

def splitOnL (s0 : Char) (srest : List Char) (l : List Char) : List (List Char) :=
  splitOnLAux s0 srest l.length l

/-- Python `s.split(sep)` for strings (`sep` passed as head char plus rest). -/
def pySplit (s : String) (s0 : Char) (srest : List Char) : List String :=
  (splitOnL s0 srest s.data).map (fun g => ⟨g⟩)

/-! ### Change Detector — `check_for_new_listings`, lines 538–551 -/
/-- One extracted listing record (the dict built at lines 389–396). -/
structure Listing where
  id : String
  name : String
  url : String
  price : String
  image_url : Option String
  search_name : String
deriving DecidableEq, Repr

/-- One iteration of the loop at lines 541–547: the accumulator carries
(`new_listings`, `current_ids`); the id is added to `current_ids` and the
record is appended to `new_listings` when its id is not in the seen set. -/
def detect_step (seen : Finset String) (acc : List Listing × Finset String)
    (l : Listing) : List Listing × Finset String :=
  let cur := insert l.id acc.2
  if l.id ∈ seen then (acc.1, cur) else (acc.1 ++ [l], cur)

/-- Lines 538–550: classify current records against the seen set and produce
the updated seen set (`self.seen_listings.update(current_ids)`). -/
def detect (seen : Finset String) (current : List Listing) :
    List Listing × Finset String :=
  let r := current.foldl (detect_step seen) ([], ∅)
  (r.1, seen ∪ r.2)

/-! ### Rendering boundary — abstract DOM queried by `get_listing_for_url` -/
/-- A sub-element of a candidate node, as far as the source inspects it:
its text and its attributes (`get_attribute` returns None for a missing
attribute, modelled by `Option`). -/
structure Leaf where
  text : String
  attrs : List (String × String)

/-- Selenium `get_attribute` on a sub-element. -/
def Leaf.attr (le : Leaf) (name : String) : Option String :=
  le.attrs.lookup name

/-- A candidate listing node: its tag name, its attributes, and the answer to
`find_elements(By.CSS_SELECTOR, sel)` scoped to this node (`find_element` is
its head; an empty answer means `find_element` raises `NoSuchElement`). -/
structure Element where
  tag_name : String
  attrs : List (String × String)
  sub : String → List Leaf

def Element.attr (e : Element) (name : String) : Option String :=
  e.attrs.lookup name

/-- Selenium `element.find_element(By.CSS_SELECTOR, sel)`: the first match,
`none` when the call would raise. -/
def find_el (e : Element) (sel : String) : Option Leaf := (e.sub sel).head?

/-- A rendered page: the answer to `driver.find_elements(By.CSS_SELECTOR, sel)`
for each selector, in document order. The page is static, so the
`WebDriverWait` presence checks are answered by the same function. -/
structure Page where
  els : String → List Element

/-! ### Field Extractor — strategy lists and per-node extraction,
lines 292–400 -/
/-- Lines 249–254. -/
def wait_selectors : List String :=
  ["[data-testid=\x27card-container\x27]",
   "a[href*=\x27/rooms/\x27]",
   "[data-testid=\x27listing-card-title\x27]",
   "div[itemProp=\x27itemListElement\x27]"]

/-- Lines 292–297. -/
def listing_selectors : List String :=
  ["[data-testid=\x27card-container\x27]",
   "div[data-testid=\x27card-container\x27]",
   "a[href*=\x27/rooms/\x27]",
   "div[itemProp=\x27itemListElement\x27]"]

/-- Lines 325–331. -/
def title_selectors : List String :=
  ["[data-testid=\x27listing-card-title\x27]",
   "div[data-testid=\x27listing-card-title\x27]",
   ".t1jojoys",
   "h3",
   ".fb4nyux"]

/-- Lines 347–353. -/
def price_selectors : List String :=
  ["[data-testid=\x27price-availability\x27] span",
   "span._1y74zjx",
   "span[data-testid=\x27price\x27]",
   "div._1jo4hgw span",
   "span"]

/-- Lines 370–376. -/
def image_selectors : List String :=
  ["img[data-testid=\x27listing-card-image\x27]",
   "img[data-original]",
   "img[src*=\x27airbnb\x27]",
   "picture img",
   "img"]

/-- Line 360: the currency markers accepted in a price text, exactly as the
literals appear in the source file. -/
def currency_markers : List String :=
  ["kr", "$", "‚Ç¨", "¬£", "DKK", "SEK", "EUR", "‚Çπ", "¬•"]

/-- Line 321: `listing_url.split('/rooms/')[-1].split('?')[0].split('/')[0]`. -/
def listing_id_of (url : String) : String :=
  let p1 := (pySplit url '/' "rooms/".data).getLastD ""
  let p2 := (pySplit p1 '?' []).headD ""
  (pySplit p2 '/' []).headD ""

/-- Lines 312–317: resolve the listing URL for a node. `none` covers both the
skip-this-element exceptions (a bare anchor without `href`, no descendant room
link) and a missing `href` on the found link, all of which emit nothing. -/
def resolve_listing_url (e : Element) : Option String :=
  if e.tag_name == "a" then
    match e.attr "href" with
    | some href =>
      if pyContains href "/rooms/" then some href
      else (find_el e "a[href*=\x27/rooms/\x27]").bind (fun le => le.attr "href")
    | none => none
  else (find_el e "a[href*=\x27/rooms/\x27]").bind (fun le => le.attr "href")

/-- Lines 333–340: first selector whose found element has non-empty stripped
text; `none` means the fallback title is used. -/
def title_loop (e : Element) : List String → Option String
  | [] => none
  | sel :: rest =>
    match find_el e sel with
    | some le => if pyStrip le.text ≠ "" then some (pyStrip le.text) else title_loop e rest
    | none => title_loop e rest

/-- Lines 324–343: listing title with the synthesized fallback of line 343. -/
def get_title (e : Element) (listing_id : String) : String :=
  match title_loop e title_selectors with
  | some t => t
  | none => "Airbnb Listing " ++ listing_id

/-- Line 360: a price text is accepted when non-empty and containing a
currency marker. -/
def price_accept (t : String) : Bool :=
  t ≠ "" && currency_markers.any (fun c => pyContains t c)

/-- Lines 355–366: per selector, the first accepted stripped text of its
matches replaces `price`; the outer loop stops once `price` differs from the
sentinel. -/
def price_loop (e : Element) : List String → String → String
  | [], price => price
  | sel :: rest, price =>
    let price2 := match ((e.sub sel).map (fun le => pyStrip le.text)).find? price_accept with
                  | some t => t
                  | none => price
    if price2 ≠ "Price not available" then price2 else price_loop e rest price2

/-- Lines 346–366: listing price, `"Price not available"` when no strategy
matches. -/
def get_price (e : Element) : String := price_loop e price_selectors "Price not available"

/-- Python `a or b` on optional strings (an empty string is falsy). -/
def pyOrStr : Option String → Option String → Option String
  | some s, b => if s ≠ "" then some s else b
  | none, b => b

/-- Lines 369–386: first selector whose found image yields a src (or
data-original) that is non-empty and contains `airbnb` or `https://`. -/
def image_loop (e : Element) : List String → Option String
  | [] => none
  | sel :: rest =>
    match find_el e sel with
    | none => image_loop e rest
    | some ie =>
      match pyOrStr (ie.attr "src") (ie.attr "data-original") with
      | some src =>
        if src ≠ "" && (pyContains src "airbnb" || pyContains src "https://")
        then some src else image_loop e rest
      | none => image_loop e rest

/-- Lines 310–400: full per-node extraction; `none` when the node contributes
no record (skipped by exception or failing the URL/id validity checks). -/
def extract_listing (e : Element) (search_name : String) : Option Listing :=
  match resolve_listing_url e with
  | none => none
  | some listing_url =>
    if listing_url ≠ "" && pyContains listing_url "/rooms/" then
      let listing_id := listing_id_of listing_url
      if listing_id ≠ "" && listing_id.length > 3 then
        some ⟨listing_id, get_title e listing_id, listing_url, get_price e,
              image_loop e image_selectors, search_name⟩
      else none
    else none

/-! ### Listing Collector — `get_listing_for_url`, lines 292–419 -/
/-- Lines 309–400: records extracted from the first 20 matched nodes, in
document order. -/
def process_nodes (es : List Element) (nm : String) : List Listing :=
  (es.take 20).filterMap (fun e => extract_listing e nm)

/-- Lines 301–408: try each node selector in order, accumulating into
`current_listings`; stop as soon as the accumulated list is non-empty after a
selector has been processed (selectors matching no elements are skipped). -/
def selector_loop (page : Page) (nm : String) :
    List String → List Listing → List Listing
  | [], acc => acc
  | sel :: rest, acc =>
    let elements := page.els sel
    if elements.isEmpty then selector_loop page nm rest acc
    else
      let acc2 := acc ++ process_nodes elements nm
      if acc2.isEmpty then selector_loop page nm rest acc2 else acc2

/-- Lines 410–416: keep the first record for each id. -/
def dedup_loop : List Listing → Finset String → List Listing
  | [], _ => []
  | l :: ls, seen_ids =>
    if l.id ∈ seen_ids then dedup_loop ls seen_ids
    else l :: dedup_loop ls (insert l.id seen_ids)

/-- Lines 247–289: the readiness wait fails when no wait selector has any
element on the (static) page; the collector then returns the empty list. -/
def page_ready (page : Page) : Bool :=
  !(wait_selectors.all (fun s => (page.els s).isEmpty))

/-- The pre-deduplication record list the collector builds (empty when the
readiness wait fails). -/
def collected (page : Page) (nm : String) : List Listing :=
  if page_ready page then selector_loop page nm listing_selectors [] else []

/-- Lines 225–419: collect listing records for one search URL's rendered
page. -/
def get_listing_for_url (page : Page) (nm : String) : List Listing :=
  if page_ready page then
    dedup_loop (selector_loop page nm listing_selectors []) ∅
  else []

/-! ### Multi-Source Aggregator — `get_listings`, lines 425–442 -/
/-- Lines 429–434: render each configured URL (the rendering boundary is an
opaque `render` capability), label it `Search i`, and concatenate the
collected records. -/
def get_listings (render : String → Page) (urls : List String) : List Listing :=
  urls.enum.flatMap
    (fun p => get_listing_for_url (render p.2) ("Search " ++ toString (p.1 + 1)))

/-! ### Run pipeline — `check_for_new_listings`, lines 525–558 -/
/-- Observable outcome of one run: the new records, the in-memory seen set at
run end, the argument of the `save_seen_listings` call when one happened, and
whether a notification was sent. -/
structure RunResult where
  new_listings : List Listing
  seen_listings : Finset String
  saved : Option (Finset String)
  notified : Bool
deriving DecidableEq

/-- Lines 525–558: the whole run against a seen set loaded at start. -/
def check_for_new_listings (render : String → Page) (search_urls : List String)
    (seen : Finset String) : RunResult :=
  if search_urls.isEmpty then ⟨[], seen, none, false⟩
  else
    let current := get_listings render search_urls
    if current.isEmpty then ⟨[], seen, none, false⟩
    else
      let r := detect seen current
      ⟨r.1, r.2, some r.2, !r.1.isEmpty⟩

/-! ### Source configuration — `load_search_urls`, lines 45–86 (identical
logic at lines 45–86 of the near-duplicate file) -/
/-- Python truthiness of `os.getenv`: unset or empty values are skipped. -/
def env_url (env : String → Option String) (key : String) : List String :=
  match env key with
  | some u => if u ≠ "" then [u] else []
  | none => []

/-- Lines 56–72: the base URL followed by `AIRBNB_SEARCH_URL_1` …
`AIRBNB_SEARCH_URL_10`, in that order, keeping duplicates. -/
def raw_urls (env : String → Option String) : List String :=
  env_url env "AIRBNB_SEARCH_URL" ++
    (List.range 10).flatMap
      (fun i => env_url env ("AIRBNB_SEARCH_URL_" ++ toString (i + 1)))

/-- Lines 74–80: drop duplicates while preserving first-seen order. -/
def unique_urls_loop : List String → Finset String → List String
  | [], _ => []
  | u :: us, seen =>
    if u ∈ seen then unique_urls_loop us seen
    else u :: unique_urls_loop us (insert u seen)

/-- Lines 45–86: the configured source list, deduplicated before any polling
(`self.search_urls` is computed in `__init__`, before any page is rendered). -/
def load_search_urls (env : String → Option String) : List String :=
  unique_urls_loop (raw_urls env) ∅

/-! ### Seen-Set Store — `load_seen_listings` / `save_seen_listings`,
lines 194–223 -/
/-- Parsed JSON values, as `json.load` produces them. -/
inductive Json where
  | null
  | bool (b : Bool)
  | num (n : Int)
  | str (s : String)
  | arr (elems : List Json)
  | obj (fields : List (String × Json))

/-- Lookup in a parsed JSON object: `json.load` builds a dict where a later
duplicate key overrides an earlier one, so the last binding wins. -/
def dictGet (fields : List (String × Json)) (key : String) : Option Json :=
  ((fields.filter (fun kv => kv.1 == key)).getLast?).map (fun kv => kv.2)

/-- Python hashability of a parsed JSON value: lists and dicts are unhashable,
so `set(...)` over them raises `TypeError` (caught by the handler). -/
def jsonHashable : Json → Bool
  | .arr _ => false
  | .obj _ => false
  | _ => true

/-- Python `set(x)` for the values `x` can take here, modelled as the list of
the set's elements (membership is the observable; deduplication does not
change it). `none` models `TypeError` (non-iterable or unhashable element);
iterating a dict yields its keys; iterating a string yields its characters. -/
def pySetOf : Json → Option (List Json)
  | .arr xs => if xs.all jsonHashable then some xs else none
  | .obj fields => some (fields.map (fun kv => Json.str kv.1))
  | .str s => some (s.data.map (fun c => Json.str c.toString))
  | _ => none

/-- The states the persisted file can be in when `load_seen_listings` runs. -/
inductive SeenFile where
  | missing
  | unreadable
  | unparsable
  | content (data : Json)

/-- Lines 194–209: load the seen set. Every error path (missing file,
unreadable file, JSON parse failure, `set()` raising on a bad shape) falls
through to the empty set. A parsed list goes through `set(data)`; anything
else goes through `data.get('seen_listings', [])`, which raises
`AttributeError` (caught) unless the value is a dict. -/
def load_seen_listings : SeenFile → List Json
  | .missing => []
  | .unreadable => []
  | .unparsable => []
  | .content data =>
    match data with
    | .arr xs =>
      match pySetOf (.arr xs) with
      | some s => s
      | none => []
    | .obj fields =>
      let field := match dictGet fields "seen_listings" with
                   | some v => v
                   | none => .arr []
      match pySetOf field with
      | some s => s
      | none => []
    | _ => []

/-- Lines 211–223: the JSON document written back —
`{'seen_listings': list(seen), 'last_updated': ..., 'total_urls': ...}`. -/
def save_seen_listings (seen : List Json) (last_updated : String)
    (total_urls : Int) : Json :=
  .obj [("seen_listings", .arr seen),
        ("last_updated", .str last_updated),
        ("total_urls", .num total_urls)]

/-- The legacy persisted shape: a bare JSON array of strings. -/
def legacyFormat (j : Json) : Prop :=
  ∃ ss : List String, j = .arr (ss.map Json.str)

/-- The wrapped persisted shape: an object whose `seen_listings` field is an
array of strings. -/
def wrappedFormat (j : Json) : Prop :=
  ∃ fields, ∃ ss : List String,
    j = .obj fields ∧ dictGet fields "seen_listings" = some (.arr (ss.map Json.str))

/-! ### Extraction auxiliaries and concrete witness inputs -/
/-- The URL/id validity condition that alone decides whether a node emits a
record; it does not inspect the price, title or image strategies. -/
def record_emitted (e : Element) : Bool :=
  match resolve_listing_url e with
  | some listing_url =>
    if listing_url ≠ "" && pyContains listing_url "/rooms/" then
      let listing_id := listing_id_of listing_url
      if listing_id ≠ "" && listing_id.length > 3 then true else false
    else false
  | none => false

/-- The price-miss hypothesis of C3: no candidate text of any price strategy
contains a currency marker. -/
@[reducible] def no_price_match (e : Element) : Prop :=
  ∀ sel ∈ price_selectors, ∀ le ∈ e.sub sel,
    ∀ c ∈ currency_markers, pyContains (pyStrip le.text) c = false

/-- A concrete candidate node: a bare room-link anchor with no sub-elements,
so every title/price/image strategy misses while the URL and id extract. -/
def roomAnchor : Element :=
  ⟨"a", [("href", "https://www.airbnb.com/rooms/123456?adults=2")], fun _ => []⟩

/-- The record `roomAnchor` extracts to. -/
def roomAnchorRec : Listing :=
  ⟨"123456", "Airbnb Listing 123456",
   "https://www.airbnb.com/rooms/123456?adults=2", "Price not available",
   none, "Search 1"⟩

/-! ### C5 -/
/-- Modelled from the spec wording of C5: the first node-selector strategy
that produces any matching nodes is used exclusively; later strategies
contribute nothing. -/
def collect_first_matching_selector (page : Page) (nm : String) : List Listing :=
  if page_ready page then
    match listing_selectors.find? (fun sel => !(page.els sel).isEmpty) with
    | some sel => dedup_loop (process_nodes (page.els sel) nm) ∅
    | none => []
  else []

/-- What the code actually does: the first node-selector strategy whose
matched nodes yield at least one extracted record is used exclusively; a
strategy that matches nodes none of which yields a record is passed over. -/
def collect_first_productive_selector (page : Page) (nm : String) : List Listing :=
  if page_ready page then
    match listing_selectors.find? (fun sel => !(process_nodes (page.els sel) nm).isEmpty) with
    | some sel => dedup_loop (process_nodes (page.els sel) nm) ∅
    | none => []
  else []

/-- A card-container node with no room link inside: it matches the first
node selector but yields no record. -/
def ghostCard : Element := ⟨"div", [], fun _ => []⟩

/-- A page whose card-container selector matches only `ghostCard` while the
anchor selector matches `roomAnchor`. -/
def mixedPage : Page :=
  ⟨fun sel =>
    if sel = "[data-testid=\x27card-container\x27]" then [ghostCard]
    else if sel = "a[href*=\x27/rooms/\x27]" then [roomAnchor]
    else []⟩

/-- A render capability whose pages answer no query: every source yields an
empty collection. -/
def blankRender : String → Page := fun _ => ⟨fun _ => []⟩

theorem detect_foldl (seen : Finset String) (current : List Listing)
    (acc : List Listing × Finset String) :
    (current.foldl (detect_step seen) acc).1
        = acc.1 ++ current.filter (fun l => decide (l.id ∉ seen)) ∧
      (current.foldl (detect_step seen) acc).2
        = acc.2 ∪ (current.map Listing.id).toFinset := by
  induction current generalizing acc with
  | nil => simp
  | cons l ls ih =>
    simp only [List.foldl_cons, List.map_cons, List.toFinset_cons]
    rcases ih (detect_step seen acc l) with ⟨h1, h2⟩
    constructor
    · rw [h1]
      by_cases hmem : l.id ∈ seen
      · simp [detect_step, hmem]
      · simp [detect_step, hmem, List.filter_cons]
    · rw [h2]
      have : (detect_step seen acc l).2 = insert l.id acc.2 := by
        by_cases hmem : l.id ∈ seen <;> simp [detect_step, hmem]
      rw [this, Finset.insert_union, Finset.union_insert]

theorem get_listing_for_url_eq_dedup (page : Page) (nm : String) :
    get_listing_for_url page nm = dedup_loop (collected page nm) ∅ := by
  unfold get_listing_for_url collected
  by_cases h : page_ready page <;> simp [h, dedup_loop]

/-! ### Store lemmas -/
theorem dictGet_save (v w u : Json) :
    dictGet [("seen_listings", v), ("last_updated", w), ("total_urls", u)]
      "seen_listings" = some v := rfl

theorem load_hashable (f : SeenFile) :
    ∀ x ∈ load_seen_listings f, jsonHashable x = true := by
  intro x hx
  cases f with
  | missing => simp [load_seen_listings] at hx
  | unreadable => simp [load_seen_listings] at hx
  | unparsable => simp [load_seen_listings] at hx
  | content data =>
    cases data with
    | arr xs =>
      simp only [load_seen_listings, pySetOf] at hx
      by_cases hall : xs.all jsonHashable = true
      · rw [if_pos hall] at hx
        exact List.all_eq_true.mp hall x hx
      · rw [if_neg hall] at hx
        simp at hx
    | obj fields =>
      simp only [load_seen_listings] at hx
      rcases hget : dictGet fields "seen_listings" with _ | v
      · rw [hget] at hx
        simp [pySetOf] at hx
      · rw [hget] at hx
        cases v with
        | arr xs =>
          simp only [pySetOf] at hx
          by_cases hall : xs.all jsonHashable = true
          · rw [if_pos hall] at hx
            exact List.all_eq_true.mp hall x hx
          · rw [if_neg hall] at hx
            simp at hx
        | obj fs =>
          simp only [pySetOf] at hx
          rcases List.mem_map.mp hx with ⟨kv, _, hkv⟩
          rw [← hkv]
          rfl
        | str s =>
          simp only [pySetOf] at hx
          rcases List.mem_map.mp hx with ⟨c, _, hc⟩
          rw [← hc]
          rfl
        | null => simp [pySetOf] at hx
        | bool b => simp [pySetOf] at hx
        | num n => simp [pySetOf] at hx
    | null => simp [load_seen_listings] at hx
    | bool b => simp [load_seen_listings] at hx
    | num n => simp [load_seen_listings] at hx
    | str s => simp [load_seen_listings] at hx

theorem load_save_of_hashable (S : List Json) (ts : String) (n : Int)
    (h : ∀ x ∈ S, jsonHashable x = true) :
    load_seen_listings (.content (save_seen_listings S ts n)) = S := by
  simp only [save_seen_listings, load_seen_listings, dictGet_save, pySetOf]
  rw [if_pos (List.all_eq_true.mpr h)]

/-! ### Claim theorems -/
/-- C1: `check_for_new_listings` classifies as new exactly the current
records whose id is absent from the input seen set, preserving input order,
and the updated seen set is the union of the input seen set with the set of
all current record ids. -/
theorem claim_C1_detect_filter_and_union (seen : Finset String)
    (current : List Listing) :
    (detect seen current).1 = current.filter (fun l => decide (l.id ∉ seen)) ∧
      (detect seen current).2 = seen ∪ (current.map Listing.id).toFinset := by
  rcases detect_foldl seen current ([], ∅) with ⟨h1, h2⟩
  constructor
  · show (current.foldl (detect_step seen) ([], ∅)).1 = _
    rw [h1]
    simp
  · show seen ∪ (current.foldl (detect_step seen) ([], ∅)).2 = _
    rw [h2]
    simp

/-- C7: `load_seen_listings` never fails — a missing, unreadable or
unparsable persisted file (and any further parse/`set()` error inside the
`try` block) yields the empty seen set instead of an exception, which the
total Lean model returns as `[]`. -/
theorem claim_C7_load_error_fallback :
    load_seen_listings .missing = [] ∧
      load_seen_listings .unreadable = [] ∧
      load_seen_listings .unparsable = [] ∧
      ∀ data : Json, (∀ s, data ≠ .arr s) → (∀ fs, data ≠ .obj fs) →
        load_seen_listings (.content data) = [] := by
  refine ⟨rfl, rfl, rfl, ?_⟩
  intro data harr hobj
  cases data with
  | arr s => exact absurd rfl (harr s)
  | obj fs => exact absurd rfl (hobj fs)
  | null => rfl
  | bool b => rfl
  | num n => rfl
  | str s => rfl

/-- C2: for a persisted file in either accepted shape — the legacy bare list
of strings or the wrapped object with a `seen_listings` field —
`save(load(file))` leaves the loadable set of ids unchanged
(order-insensitive set equality, stated as membership equivalence). -/
theorem claim_C2_save_load_roundtrip (j : Json) (ts : String) (n : Int)
    (_hfmt : legacyFormat j ∨ wrappedFormat j) :
    ∀ x : Json,
      x ∈ load_seen_listings
            (.content (save_seen_listings (load_seen_listings (.content j)) ts n))
        ↔ x ∈ load_seen_listings (.content j) := by
  intro x
  rw [load_save_of_hashable _ ts n (load_hashable (.content j))]

/-- C2 witness: a concrete legacy-format file round-trips. -/
theorem claim_C2_witness :
    (legacyFormat (Json.arr [.str "100", .str "101"]) ∨
        wrappedFormat (Json.arr [.str "100", .str "101"])) ∧
      ∀ x : Json,
        x ∈ load_seen_listings
              (.content (save_seen_listings
                (load_seen_listings (.content (Json.arr [.str "100", .str "101"])))
                "2024-01-01T00:00:00" 2))
          ↔ x ∈ load_seen_listings (.content (Json.arr [.str "100", .str "101"])) :=
  ⟨Or.inl ⟨["100", "101"], rfl⟩,
    claim_C2_save_load_roundtrip (Json.arr [.str "100", .str "101"])
      "2024-01-01T00:00:00" 2 (Or.inl ⟨["100", "101"], rfl⟩)⟩

theorem extract_listing_isSome (e : Element) (nm : String) :
    (extract_listing e nm).isSome = record_emitted e := by
  unfold extract_listing record_emitted
  rcases resolve_listing_url e with _ | u
  · rfl
  · dsimp only
    split
    · split
      · rfl
      · rfl
    · rfl

theorem extract_listing_fields (e : Element) (nm : String) (r : Listing)
    (h : extract_listing e nm = some r) :
    r.id = listing_id_of r.url ∧ r.name = get_title e r.id ∧
      r.price = get_price e ∧ r.search_name = nm := by
  rcases hres : resolve_listing_url e with _ | u
  · rw [extract_listing, hres] at h
    exact absurd h (by simp)
  · rw [extract_listing, hres] at h
    dsimp only at h
    split at h
    · split at h
      · rcases Option.some.inj h with rfl
        exact ⟨rfl, rfl, rfl, rfl⟩
      · exact absurd h (by simp)
    · exact absurd h (by simp)

theorem price_accept_has_marker (t : String) (h : price_accept t = true) :
    ∃ c ∈ currency_markers, pyContains t c = true := by
  unfold price_accept at h
  rw [Bool.and_eq_true] at h
  exact List.any_eq_true.mp h.2

theorem price_loop_no_match (e : Element) (sels : List String)
    (h : ∀ sel ∈ sels, ∀ le ∈ e.sub sel,
      ∀ c ∈ currency_markers, pyContains (pyStrip le.text) c = false) :
    price_loop e sels "Price not available" = "Price not available" := by
  induction sels with
  | nil => rfl
  | cons sel rest ih =>
    have hfind : ((e.sub sel).map (fun le => pyStrip le.text)).find? price_accept
        = none := by
      refine List.find?_eq_none.mpr ?_
      intro t ht hacc
      rcases List.mem_map.mp ht with ⟨le, hle, rfl⟩
      rcases price_accept_has_marker _ hacc with ⟨c, hc, hcontains⟩
      rw [h sel (List.mem_cons_self sel rest) le hle c hc] at hcontains
      exact Bool.false_ne_true hcontains
    rw [price_loop, hfind]
    simp only [ne_eq, not_true_eq_false, decide_False, Bool.false_eq_true,
      if_false]
    exact ih (fun s hs => h s (List.mem_cons_of_mem sel hs))

theorem roomAnchor_extracts :
    extract_listing roomAnchor "Search 1" = some roomAnchorRec := by decide

/-- C3: when no price strategy matches on a node, the record's price is the
source's miss value `"Price not available"` (the code-level encoding of the
spec's `absent`), never the empty string; and the miss does not prevent
extraction — whether a record is emitted depends only on the URL/id
condition `record_emitted`, and an emitted record's id, url and title are
exactly what the id/url/title extractors produce. -/
theorem claim_C3_price_miss_fallback (e : Element) (nm : String)
    (h : no_price_match e) :
    get_price e = "Price not available" ∧
      "Price not available" ≠ "" ∧
      (extract_listing e nm).isSome = record_emitted e ∧
      ∀ r, extract_listing e nm = some r →
        r.price = "Price not available" ∧ r.id = listing_id_of r.url ∧
          r.name = get_title e r.id := by
  have hprice : get_price e = "Price not available" := price_loop_no_match e _ h
  refine ⟨hprice, by decide, extract_listing_isSome e nm, ?_⟩
  intro r hr
  rcases extract_listing_fields e nm r hr with ⟨hid, hname, hpr, _⟩
  exact ⟨hpr.trans hprice, hid, hname⟩

theorem claim_C3_witness :
    no_price_match roomAnchor ∧
      (get_price roomAnchor = "Price not available" ∧
        "Price not available" ≠ "" ∧
        (extract_listing roomAnchor "Search 1").isSome = record_emitted roomAnchor ∧
        ∀ r, extract_listing roomAnchor "Search 1" = some r →
          r.price = "Price not available" ∧ r.id = listing_id_of r.url ∧
            r.name = get_title roomAnchor r.id) :=
  ⟨by decide, claim_C3_price_miss_fallback roomAnchor "Search 1" (by decide)⟩

/-! ### C4 -/
/-- C4 counterexample: on a node whose title no strategy can extract, the
emitted record's title is `"Airbnb Listing 123456"` (line 343), not the
claimed `"Listing 123456"`. -/
theorem claim_C4_counterexample :
    title_loop roomAnchor title_selectors = none ∧
      extract_listing roomAnchor "Search 1" = some roomAnchorRec ∧
      roomAnchorRec.name ≠ "Listing " ++ roomAnchorRec.id := by decide

/-- C4 as amended: when no title strategy extracts a title, the emitted
record's title is the synthesized placeholder `"Airbnb Listing {id}"` for the
record's id. -/
theorem claim_C4_title_fallback (e : Element) (nm : String) (r : Listing)
    (htitle : title_loop e title_selectors = none)
    (h : extract_listing e nm = some r) :
    r.name = "Airbnb Listing " ++ r.id := by
  rcases extract_listing_fields e nm r h with ⟨_, hname, _, _⟩
  rw [hname, get_title, htitle]

theorem claim_C4_witness :
    title_loop roomAnchor title_selectors = none ∧
      extract_listing roomAnchor "Search 1" = some roomAnchorRec ∧
      roomAnchorRec.name = "Airbnb Listing " ++ roomAnchorRec.id :=
  ⟨by decide, roomAnchor_extracts,
    claim_C4_title_fallback roomAnchor "Search 1" roomAnchorRec (by decide)
      roomAnchor_extracts⟩

/-- C5 counterexample: on `mixedPage` the first strategy producing matching
nodes is the card-container selector, which yields no records; the code then
falls through to the anchor selector and emits its record, so the collection
differs from the claimed first-matching-selector behaviour. -/
theorem claim_C5_counterexample :
    get_listing_for_url mixedPage "Search 1" = [roomAnchorRec] ∧
      collect_first_matching_selector mixedPage "Search 1" = [] ∧
      get_listing_for_url mixedPage "Search 1"
        ≠ collect_first_matching_selector mixedPage "Search 1" := by decide

theorem selector_loop_characterization (page : Page) (nm : String)
    (sels : List String) :
    selector_loop page nm sels []
      = (match sels.find? (fun sel => !(process_nodes (page.els sel) nm).isEmpty) with
         | some sel => process_nodes (page.els sel) nm
         | none => []) := by
  induction sels with
  | nil => rfl
  | cons sel rest ih =>
    rw [selector_loop]
    by_cases hempty : (page.els sel).isEmpty = true
    · have hproc : process_nodes (page.els sel) nm = [] := by
        rw [List.isEmpty_iff.mp hempty]
        rfl
      rw [if_pos hempty, ih, List.find?_cons]
      simp [hproc]
    · rw [if_neg hempty]
      dsimp only
      by_cases hprod : (process_nodes (page.els sel) nm).isEmpty = true
      · have hnil : process_nodes (page.els sel) nm = [] := List.isEmpty_iff.mp hprod
        rw [List.nil_append, if_pos hprod, hnil, ih, List.find?_cons]
        simp [hprod]
      · rw [List.nil_append, if_neg hprod, List.find?_cons]
        simp [hprod]

/-- C5 as amended: node-selector strategies are tried in priority order and
the first strategy whose matched nodes (capped at 20) yield any extracted
records is used exclusively; a strategy matching nodes that all fail
extraction is passed over, and no records from later strategies are merged
once a strategy has produced records. -/
theorem claim_C5_first_productive_selector (page : Page) (nm : String) :
    get_listing_for_url page nm = collect_first_productive_selector page nm := by
  unfold get_listing_for_url collect_first_productive_selector
  by_cases hready : page_ready page = true
  · rw [if_pos hready, if_pos hready, selector_loop_characterization]
    rcases listing_selectors.find?
        (fun sel => !(process_nodes (page.els sel) nm).isEmpty) with _ | sel
    · rfl
    · rfl
  · rw [if_neg hready, if_neg hready]

/-! ### C6 -/
theorem dedup_loop_mem_not_seen (l : List Listing) (s : Finset String)
    (x : Listing) (hx : x ∈ dedup_loop l s) : x.id ∉ s := by
  induction l generalizing s with
  | nil => simp [dedup_loop] at hx
  | cons a as ih =>
    rw [dedup_loop] at hx
    by_cases hmem : a.id ∈ s
    · exact ih s (by rwa [if_pos hmem] at hx)
    · rw [if_neg hmem] at hx
      rcases List.mem_cons.mp hx with rfl | hx'
      · exact hmem
      · intro hxs
        exact ih (insert a.id s) hx' (Finset.mem_insert_of_mem hxs)

theorem dedup_loop_sublist (l : List Listing) (s : Finset String) :
    List.Sublist (dedup_loop l s) l := by
  induction l generalizing s with
  | nil => exact List.Sublist.refl []
  | cons a as ih =>
    rw [dedup_loop]
    by_cases hmem : a.id ∈ s
    · rw [if_pos hmem]
      exact (ih s).cons a
    · rw [if_neg hmem]
      exact (ih (insert a.id s)).cons₂ a

theorem dedup_loop_ids_nodup (l : List Listing) (s : Finset String) :
    ((dedup_loop l s).map Listing.id).Nodup := by
  induction l generalizing s with
  | nil => simp [dedup_loop]
  | cons a as ih =>
    rw [dedup_loop]
    by_cases hmem : a.id ∈ s
    · rw [if_pos hmem]
      exact ih s
    · rw [if_neg hmem]
      refine List.Nodup.cons ?_ (ih (insert a.id s))
      intro hins
      rcases List.mem_map.mp hins with ⟨y, hy, hyid⟩
      exact dedup_loop_mem_not_seen as (insert a.id s) y hy
        (hyid ▸ Finset.mem_insert_self a.id s)

theorem dedup_loop_covers (l : List Listing) (s : Finset String)
    (x : Listing) (hx : x ∈ l) (hxs : x.id ∉ s) :
    ∃ r ∈ dedup_loop l s, r.id = x.id := by
  induction l generalizing s with
  | nil => simp at hx
  | cons a as ih =>
    rw [dedup_loop]
    by_cases hmem : a.id ∈ s
    · rw [if_pos hmem]
      rcases List.mem_cons.mp hx with rfl | hx'
      · exact absurd hmem hxs
      · exact ih s hx' hxs
    · rw [if_neg hmem]
      rcases List.mem_cons.mp hx with rfl | hx'
      · exact ⟨x, List.mem_cons_self x _, rfl⟩
      · by_cases hid : x.id = a.id
        · exact ⟨a, List.mem_cons_self a _, hid.symm⟩
        · rcases ih (insert a.id s) hx'
              (fun hin => (Finset.mem_insert.mp hin).elim hid hxs) with ⟨r, hr, hrid⟩
          exact ⟨r, List.mem_cons_of_mem a hr, hrid⟩

theorem dedup_loop_keeps_first (l : List Listing) (s : Finset String)
    (r : Listing) (hr : r ∈ dedup_loop l s) :
    l.find? (fun x => x.id == r.id) = some r := by
  induction l generalizing s with
  | nil => simp [dedup_loop] at hr
  | cons a as ih =>
    rw [dedup_loop] at hr
    by_cases hmem : a.id ∈ s
    · rw [if_pos hmem] at hr
      have hne : a.id ≠ r.id := by
        intro heq
        exact dedup_loop_mem_not_seen as s r hr (heq ▸ hmem)
      rw [List.find?_cons_of_neg as (by simpa using hne)]
      exact ih s hr
    · rw [if_neg hmem] at hr
      rcases List.mem_cons.mp hr with rfl | hr'
      · exact List.find?_cons_of_pos as (by simp)
      · have hne : a.id ≠ r.id := by
          intro heq
          exact dedup_loop_mem_not_seen as (insert a.id s) r hr'
            (heq ▸ Finset.mem_insert_self a.id s)
        rw [List.find?_cons_of_neg as (by simpa using hne)]
        exact ih (insert a.id s) hr'

/-- C6: within one collection pass for one source, emitted ids are unique;
the output is a subsequence of the pre-deduplication record list (document
order preserved); every collected id is represented; and the record emitted
for an id is the first record with that id in document order. -/
theorem claim_C6_dedup_by_id_first_occurrence (page : Page) (nm : String) :
    ((get_listing_for_url page nm).map Listing.id).Nodup ∧
      List.Sublist (get_listing_for_url page nm) (collected page nm) ∧
      (∀ x ∈ collected page nm, ∃ r ∈ get_listing_for_url page nm, r.id = x.id) ∧
      ∀ r ∈ get_listing_for_url page nm,
        (collected page nm).find? (fun x => x.id == r.id) = some r := by
  rw [get_listing_for_url_eq_dedup]
  refine ⟨dedup_loop_ids_nodup _ _, dedup_loop_sublist _ _, ?_, ?_⟩
  · intro x hx
    exact dedup_loop_covers (collected page nm) ∅ x hx (Finset.not_mem_empty x.id)
  · intro r hr
    exact dedup_loop_keeps_first (collected page nm) ∅ r hr

/-! ### C8 -/
theorem unique_urls_loop_mem (l : List String) (s : Finset String) (x : String) :
    x ∈ unique_urls_loop l s ↔ x ∈ l ∧ x ∉ s := by
  induction l generalizing s with
  | nil => simp [unique_urls_loop]
  | cons u us ih =>
    rw [unique_urls_loop]
    by_cases hmem : u ∈ s
    · rw [if_pos hmem, ih]
      constructor
      · rintro ⟨hx, hxs⟩
        exact ⟨List.mem_cons_of_mem u hx, hxs⟩
      · rintro ⟨hx, hxs⟩
        rcases List.mem_cons.mp hx with rfl | h
        · exact absurd hmem hxs
        · exact ⟨h, hxs⟩
    · rw [if_neg hmem]
      constructor
      · intro hx
        rcases List.mem_cons.mp hx with rfl | h
        · exact ⟨List.mem_cons_self x us, hmem⟩
        · rcases (ih (insert u s)).mp h with ⟨h1, h2⟩
          exact ⟨List.mem_cons_of_mem u h1,
            fun hs => h2 (Finset.mem_insert_of_mem hs)⟩
      · rintro ⟨hx, hxs⟩
        rcases List.mem_cons.mp hx with rfl | h
        · exact List.mem_cons_self x _
        · by_cases hxu : x = u
          · exact hxu ▸ List.mem_cons_self u _
          · refine List.mem_cons_of_mem u ((ih (insert u s)).mpr ⟨h, ?_⟩)
            simp [Finset.mem_insert, hxu, hxs]

theorem unique_urls_loop_nodup (l : List String) (s : Finset String) :
    (unique_urls_loop l s).Nodup := by
  induction l generalizing s with
  | nil => simp [unique_urls_loop]
  | cons u us ih =>
    rw [unique_urls_loop]
    by_cases hmem : u ∈ s
    · rw [if_pos hmem]
      exact ih s
    · rw [if_neg hmem]
      refine List.Nodup.cons ?_ (ih (insert u s))
      intro hin
      exact ((unique_urls_loop_mem us (insert u s) u).mp hin).2
        (Finset.mem_insert_self u s)

theorem unique_urls_loop_sublist (l : List String) (s : Finset String) :
    List.Sublist (unique_urls_loop l s) l := by
  induction l generalizing s with
  | nil => exact List.Sublist.refl []
  | cons u us ih =>
    rw [unique_urls_loop]
    by_cases hmem : u ∈ s
    · rw [if_pos hmem]
      exact (ih s).cons u
    · rw [if_neg hmem]
      exact (ih (insert u s)).cons₂ u

theorem unique_urls_loop_pairwise (l : List String) (s : Finset String) :
    (unique_urls_loop l s).Pairwise (fun a b => l.indexOf a < l.indexOf b) := by
  induction l generalizing s with
  | nil => simp [unique_urls_loop]
  | cons u us ih =>
    rw [unique_urls_loop]
    by_cases hmem : u ∈ s
    · rw [if_pos hmem]
      refine List.Pairwise.imp_of_mem ?_ (ih s)
      intro a b ha hb hR
      have hau : a ≠ u := fun h => ((unique_urls_loop_mem us s a).mp ha).2 (h ▸ hmem)
      have hbu : b ≠ u := fun h => ((unique_urls_loop_mem us s b).mp hb).2 (h ▸ hmem)
      rw [List.indexOf_cons_ne us hau.symm, List.indexOf_cons_ne us hbu.symm]
      omega
    · rw [if_neg hmem]
      refine List.Pairwise.cons ?_ ?_
      · intro b hb
        have hbu : b ≠ u := fun h =>
          ((unique_urls_loop_mem us (insert u s) b).mp hb).2
            (h ▸ Finset.mem_insert_self u s)
        rw [List.indexOf_cons_self, List.indexOf_cons_ne us hbu.symm]
        omega
      · refine List.Pairwise.imp_of_mem ?_ (ih (insert u s))
        intro a b ha hb hR
        have hau : a ≠ u := fun h =>
          ((unique_urls_loop_mem us (insert u s) a).mp ha).2
            (h ▸ Finset.mem_insert_self u s)
        have hbu : b ≠ u := fun h =>
          ((unique_urls_loop_mem us (insert u s) b).mp hb).2
            (h ▸ Finset.mem_insert_self u s)
        rw [List.indexOf_cons_ne us hau.symm, List.indexOf_cons_ne us hbu.symm]
        omega

/-- C8: the loaded source-URL list contains each configured URL exactly once
(no duplicates, same membership as the raw configured sequence), and its
order is the raw sequence's first-seen order (a subsequence of the raw
sequence, sorted by first-occurrence position); this happens in `__init__`,
before any polling. -/
theorem claim_C8_urls_deduplicated_first_seen (env : String → Option String) :
    (load_search_urls env).Nodup ∧
      (∀ u, u ∈ load_search_urls env ↔ u ∈ raw_urls env) ∧
      List.Sublist (load_search_urls env) (raw_urls env) ∧
      (load_search_urls env).Pairwise
        (fun a b => (raw_urls env).indexOf a < (raw_urls env).indexOf b) := by
  refine ⟨unique_urls_loop_nodup _ _, ?_, unique_urls_loop_sublist _ _,
    unique_urls_loop_pairwise _ _⟩
  intro u
  rw [load_search_urls, unique_urls_loop_mem]
  simp

/-! ### C9 and C10 -/
/-- C9: when aggregation over all configured sources yields no records, the
run stops before change detection: no new listings, the seen set unchanged,
no save call, no notification. -/
theorem claim_C9_empty_aggregate_frame (render : String → Page)
    (urls : List String) (seen : Finset String)
    (h : get_listings render urls = []) :
    check_for_new_listings render urls seen = ⟨[], seen, none, false⟩ := by
  unfold check_for_new_listings
  by_cases hurls : urls.isEmpty = true
  · rw [if_pos hurls]
  · rw [if_neg hurls]
    dsimp only
    rw [h]
    rfl

theorem claim_C9_witness :
    get_listings blankRender ["https://www.airbnb.com/s/test/homes"] = [] ∧
      check_for_new_listings blankRender ["https://www.airbnb.com/s/test/homes"]
          {"123456"} = ⟨[], {"123456"}, none, false⟩ :=
  ⟨rfl, claim_C9_empty_aggregate_frame blankRender
    ["https://www.airbnb.com/s/test/homes"] {"123456"} rfl⟩

/-- C10: a run never removes an identifier from the seen set — the seen set
at run end is a superset of the seen set loaded at run start, whichever
branch the run takes. -/
theorem claim_C10_seen_set_monotone (render : String → Page)
    (urls : List String) (seen : Finset String) :
    seen ⊆ (check_for_new_listings render urls seen).seen_listings := by
  unfold check_for_new_listings
  by_cases hurls : urls.isEmpty = true
  · rw [if_pos hurls]
  · rw [if_neg hurls]
    dsimp only
    by_cases hcur : (get_listings render urls).isEmpty = true
    · rw [if_pos hcur]
    · rw [if_neg hcur]
      exact Finset.subset_union_left
